import Mathlib

/-!
Shallow embedding of the libarchive-rs core
(src/libarchive/src/archive.rs, src/libarchive/src/error.rs):
the `Archive` handle, the `Entries` iterator, the `Entry` view and the
`Error` taxonomy, together with a model of the external native archive
engine, which is out of scope for the crate (spec section 1) and is therefore
modelled from the spec's narrow operation set (spec section 6).

Paths are represented by their byte sequences after the lossy UTF-8
conversion performed by `to_string_lossy` (`List Nat`); machine statuses by
`Int`; the platform is fixed to unix (the `cfg!(unix)` branches of the
source are taken).  Engine behaviour that the crate cannot observe other
than through statuses (allocation success, open success, header/data
acceptance) is represented by boolean environment flags.
-/

namespace LibArchiveRs

/-- `ErrorKind` from error.rs: local I/O failure vs engine-reported failure. -/
inductive ErrorKind
  | Io
  | LibArchive
deriving DecidableEq, Repr

/-- `Error` from error.rs: a message plus a kind. -/
structure Error where
  message : String
  kind : ErrorKind
deriving DecidableEq, Repr

/-- `Error::new` (error.rs): an engine-kind error with the given message. -/
def Error.new (message : String) : Error :=
  { message := message, kind := ErrorKind.LibArchive }

/-- Modelled from the spec: the diagnostic string read through the engine's
`get-error-string` call on the live context (spec section 6); the engine is
external to src/, so the string is abstract. -/
def engineDiagnostic : String := "engine diagnostic"

/-- `Error::from_archive` (error.rs): wraps the engine's current diagnostic
string, kind `LibArchive`. -/
def Error.from_archive : Error := Error.new engineDiagnostic

/-- `From<std::io::Error> for Error` (error.rs): lifts the underlying I/O
failure's display message, kind `Io`. -/
def Error.fromIo (msg : String) : Error :=
  { message := msg, kind := ErrorKind.Io }

/-- Outcome of a public operation: `Ok`, `Err`, or a Rust panic (the
`.unwrap()` on a failed `CString::new`). -/
inductive Outcome (α : Type)
  | ok (a : α)
  | err (e : Error)
  | panic
deriving DecidableEq, Repr

/-- `CString::new` applied to the lossy-converted path bytes (archive.rs
lines 26-27, 49-50, 126-127): fails exactly when the bytes contain a NUL
byte; every caller in the crate `unwrap`s the result, so failure is a panic. -/
def cstringNew (bytes : List Nat) : Option (List Nat) :=
  if 0 ∈ bytes then none else some bytes

/-- `AE_IFREG`: the regular-file filetype constant (octal 100000). -/
def AE_IFREG : Nat := 32768

def ARCHIVE_OK : Int := 0

def ARCHIVE_EOF : Int := 1

def ARCHIVE_FATAL : Int := -30

/-- `Archive::DEFAULT_BLOCK_SIZE` (archive.rs line 21). -/
def DEFAULT_BLOCK_SIZE : Nat := 65536

/-- The largest value representable in `usize` (64-bit target). -/
def usizeMax : Nat := 2 ^ 64 - 1

/-- `blksize.try_into().unwrap_or(Archive::DEFAULT_BLOCK_SIZE)`
(archive.rs lines 32-33 and 145-146): the platform-reported block size when
it is representable as `usize`, the default otherwise. -/
def blockSizeOf (blksize : Nat) : Nat :=
  if blksize ≤ usizeMax then blksize else DEFAULT_BLOCK_SIZE

/-- Modelled from the spec: the engine's reusable entry record (spec
section 6): a filetype and a pathname, written through `set-entry-filetype`
and `set-entry-pathname`. -/
structure EntryRec where
  filetype : Nat
  pathname : List Nat
deriving DecidableEq, Repr

/-- Modelled from the spec: the engine's read context (spec section 6).
`pending` is the sequence of headers the archive stream will produce, a
`none` marking a mid-stream read failure; `terminal` records that the engine
has already reported end-of-archive or a fatal error, after which every
further `read-next-header` call reports non-success. -/
structure ReadCtx where
  pending : List (Option EntryRec)
  terminal : Bool
deriving DecidableEq, Repr

/-- Modelled from the spec: the engine's write context (spec section 6).
`headers` and `data` record what `write-header` and `write-data` accepted;
`headerOk` and `dataOk` are the engine environment: whether it reports
success for header and data writes on this context. -/
structure WriteCtx where
  headers : List EntryRec
  data : List (List Nat)
  headerOk : Bool
  dataOk : Bool
deriving DecidableEq, Repr

/-- The native context owned by an `Archive`: a read context or a write
context (the source holds it as one untyped pointer plus the `close_read`
flag). -/
inductive Ctx
  | read (c : ReadCtx)
  | write (c : WriteCtx)
deriving DecidableEq, Repr

/-- Modelled from the spec: `read-next-header` (spec section 6).  On a
non-terminal context it yields the next pending header with status
`ARCHIVE_OK`, reports `ARCHIVE_EOF` once the stream is exhausted and
`ARCHIVE_FATAL` at an injected read failure; a terminal context stays
terminal and keeps reporting non-success. -/
def readNextHeader (c : ReadCtx) : Int × ReadCtx × Option EntryRec :=
  if c.terminal then (ARCHIVE_FATAL, c, none)
  else
    match c.pending with
    | [] => (ARCHIVE_EOF, { pending := [], terminal := true }, none)
    | some r :: rest => (ARCHIVE_OK, { pending := rest, terminal := false }, some r)
    | none :: rest => (ARCHIVE_FATAL, { pending := rest, terminal := true }, none)

/-- `archive_read_next_header` dispatched on the untyped context pointer:
on a write context the engine reports non-success (the call is a mode
mismatch; modelled from the spec, section 6). -/
def ctxReadNextHeader : Ctx → Int × Ctx × Option EntryRec
  | Ctx.read c =>
    match readNextHeader c with
    | (st, c', r) => (st, Ctx.read c', r)
  | Ctx.write c => (ARCHIVE_FATAL, Ctx.write c, none)

/-- Engine calls traced during `append_file` and teardown, used to state the
resource-lifecycle claims. -/
inductive Teardown
  | readFree
  | writeFree
deriving DecidableEq, Repr

inductive Event
  | allocEntry
  | freeEntry
  | writeHeaderCall (onReadCtx : Bool)
  | writeDataCall (status : Int)
  | teardown (t : Teardown)
deriving DecidableEq, Repr

/-- Modelled from the spec: `write-header` (spec section 6).  On a write
context whose engine accepts headers the record is appended and the call
succeeds; otherwise — including the mode mismatch of a read context — the
engine reports non-success. -/
def ctxWriteHeader : Ctx → EntryRec → Int × Ctx × Event
  | Ctx.read c, _ => (ARCHIVE_FATAL, Ctx.read c, Event.writeHeaderCall true)
  | Ctx.write c, e =>
    if c.headerOk then
      (ARCHIVE_OK, Ctx.write { c with headers := c.headers ++ [e] },
        Event.writeHeaderCall false)
    else (ARCHIVE_FATAL, Ctx.write c, Event.writeHeaderCall false)

/-- Modelled from the spec: `write-data` (spec section 6): returns the byte
count written on success and a negative status on failure (mode mismatch or
an engine data-write failure). -/
def ctxWriteData : Ctx → List Nat → Int × Ctx
  | Ctx.read c, _ => (ARCHIVE_FATAL, Ctx.read c)
  | Ctx.write c, buf =>
    if c.dataOk then
      ((buf.length : Int), Ctx.write { c with data := c.data ++ [buf] })
    else (ARCHIVE_FATAL, Ctx.write c)

/-- The `Archive` struct (archive.rs lines 14-18): the owned native context,
the I/O block size, and the flag selecting the teardown call. -/
structure Archive where
  underlying : Ctx
  block_size : Nat
  close_read : Bool
deriving DecidableEq, Repr

/-- Environment for `Archive::open_filename`: whether `archive_read_new`
returns a context, whether `archive_read_open_filename` reports success, and
the header stream the opened archive will produce. -/
structure ReadEnv where
  allocOk : Bool
  openOk : Bool
  content : List (Option EntryRec)
deriving DecidableEq, Repr

/-- Environment for `Archive::create`: whether `archive_write_new` returns a
context, whether `archive_write_set_format_filter_by_ext` and
`archive_write_open_filename` report success, and whether the engine will
accept header and data writes on the resulting context. -/
structure WriteEnv where
  allocOk : Bool
  extOk : Bool
  openOk : Bool
  headerOk : Bool
  dataOk : Bool
deriving DecidableEq, Repr

/-- `Archive::open_filename` (archive.rs lines 89-117): allocate a read
context (`Error::new "archive allocation error"` on failure), enable all
filters and formats (statuses ignored by the source), then
`archive_read_open_filename`; non-success yields `Error::from_archive`. -/
def Archive.open_filename (env : ReadEnv) (block_size : Nat) : Outcome Archive :=
  if env.allocOk = false then Outcome.err (Error.new "archive allocation error")
  else if env.openOk then
    Outcome.ok
      { underlying := Ctx.read { pending := env.content, terminal := false },
        block_size := block_size, close_read := true }
  else Outcome.err Error.from_archive

/-- `Archive::open` (archive.rs lines 23-39) on unix: lossy conversion and
`CString::new(..).unwrap()` (panic on NUL), then `fs::metadata(path)?` —
whose failure (e.g. a nonexistent path) is lifted by `?` through
`From<std::io::Error>` to an `Io`-kind error — then the block-size
computation and `open_filename`.  `fsMeta` is the platform metadata result:
the reported `blksize`, or the I/O error message. -/
def Archive.«open» (path : List Nat) (fsMeta : Except String Nat)
    (env : ReadEnv) : Outcome Archive :=
  match cstringNew path with
  | none => Outcome.panic
  | some _ =>
    match fsMeta with
    | Except.error msg => Outcome.err (Error.fromIo msg)
    | Except.ok blksize => Archive.open_filename env (blockSizeOf blksize)

/-- `Archive::stdin` (archive.rs lines 41-43): `open_filename` with a null
path and the default block size. -/
def Archive.stdin (env : ReadEnv) : Outcome Archive :=
  Archive.open_filename env DEFAULT_BLOCK_SIZE

/-- `Archive::create` (archive.rs lines 45-87): `CString::new(..).unwrap()`
(panic on NUL), `archive_write_new` (allocation-error on failure),
`archive_write_set_format_filter_by_ext`, then
`archive_write_open_filename`; each engine non-success yields
`Error::from_archive`. -/
def Archive.create (path : List Nat) (env : WriteEnv) : Outcome Archive :=
  match cstringNew path with
  | none => Outcome.panic
  | some _ =>
    if env.allocOk = false then Outcome.err (Error.new "archive allocation error")
    else if env.extOk = false then Outcome.err Error.from_archive
    else if env.openOk then
      Outcome.ok
        { underlying := Ctx.write
            { headers := [], data := [], headerOk := env.headerOk,
              dataOk := env.dataOk },
          block_size := DEFAULT_BLOCK_SIZE, close_read := false }
    else Outcome.err Error.from_archive

/-- `Drop for Archive` (archive.rs lines 182-194): the teardown call is
selected by the `close_read` flag. -/
def Archive.dropCall (a : Archive) : Teardown :=
  if a.close_read then Teardown.readFree else Teardown.writeFree

/-- The source file handed to `append_file` (`&mut File`): whether
`file.metadata()` succeeds, the reported `blksize`, the byte content, and
whether `file.read` succeeds (a `false` models a read failure at the first
chunk). -/
structure SrcFile where
  metaOk : Bool
  blksize : Nat
  content : List Nat
  readOk : Bool
deriving DecidableEq, Repr

/-- The read/write loop of `append_file` (archive.rs lines 151-165): read up
to `chunk` bytes into the buffer, pass them to `archive_write_data` — whose
returned status the source discards — and repeat until a read returns no
bytes.  Fuel is the remaining content length: each iteration that recurses
consumes at least one byte. -/
def writeLoopAux : Nat → Ctx → Nat → List Nat → Ctx × List Event
  | 0, ctx, _, _ => (ctx, [])
  | fuel + 1, ctx, chunk, content =>
    if chunk = 0 ∨ content = [] then (ctx, [])
    else
      let nbytes := min chunk content.length
      match ctxWriteData ctx (content.take nbytes) with
      | (st, ctx') =>
        match writeLoopAux fuel ctx' chunk (content.drop nbytes) with
        | (ctxf, evs) => (ctxf, Event.writeDataCall st :: evs)

def writeLoop (ctx : Ctx) (chunk : Nat) (content : List Nat) : Ctx × List Event :=
  writeLoopAux content.length ctx chunk content

/-- The body of `Archive::append_file` (archive.rs lines 119-171) acting on
`self.underlying`, the only field of `self` the method reads or writes.  In
source order: lossy conversion and `CString::new(..).unwrap()` (panic on
NUL); `archive_entry_new`; `file.metadata()?` (an `Io` error returns early);
`archive_entry_set_filetype(AE_IFREG)` and `archive_entry_set_pathname`;
`archive_write_header` (non-success returns `Error::from_archive` early);
the chunked read/write loop at the source's block size (a read failure
returns an `Io` error early); finally `archive_entry_free`.  Only the
success path reaches the `archive_entry_free` call.  The traced events
record entry allocation/release, the header-write call (flagging whether it
was issued against a read context) and each data-write status. -/
def appendFileCtx (u : Ctx) (path : List Nat) (file : SrcFile) :
    Outcome Ctx × List Event :=
  match cstringNew path with
  | none => (Outcome.panic, [])
  | some cpath =>
    let evs0 := [Event.allocEntry]
    if file.metaOk = false then
      (Outcome.err (Error.fromIo "metadata error"), evs0)
    else
      let entry : EntryRec := { filetype := AE_IFREG, pathname := cpath }
      match ctxWriteHeader u entry with
      | (st, ctx1, hev) =>
        let evs1 := evs0 ++ [hev]
        if st = ARCHIVE_OK then
          let chunk := blockSizeOf file.blksize
          if file.readOk = false then
            (Outcome.err (Error.fromIo "read error"), evs1)
          else
            match writeLoop ctx1 chunk file.content with
            | (ctx2, devs) => (Outcome.ok ctx2, evs1 ++ devs ++ [Event.freeEntry])
        else (Outcome.err Error.from_archive, evs1)

/-- `Archive::append_file` on the handle: `&mut self` mutates only
`self.underlying`; `block_size` and `close_read` are untouched. -/
def Archive.append_file (a : Archive) (path : List Nat) (file : SrcFile) :
    Outcome Archive × List Event :=
  match appendFileCtx a.underlying path file with
  | (Outcome.ok u', evs) => (Outcome.ok { a with underlying := u' }, evs)
  | (Outcome.err e, evs) => (Outcome.err e, evs)
  | (Outcome.panic, evs) => (Outcome.panic, evs)

/-- `Archive::block_size` (archive.rs lines 173-175). -/
def Archive.blockSize (a : Archive) : Nat := a.block_size

/-- The `Entry` view (transient in the source; the model copies the record). -/
structure Entry where
  record : EntryRec
deriving DecidableEq, Repr

/-- `Entry::path`: the pathname of the current record. -/
def Entry.path (e : Entry) : List Nat := e.record.pathname

/-- The `Entries` iterator (archive.rs lines 205-217): owns the Archive and
the current entry pointer (initially null). -/
structure Entries where
  archive : Archive
  current : Option EntryRec
deriving DecidableEq, Repr

/-- `Archive::entries` (archive.rs lines 177-179): consumes the Archive with
no mode check and no error channel. -/
def Archive.entries (a : Archive) : Entries :=
  { archive := a, current := none }

/-- `Entries::next` (archive.rs lines 219-242): call
`archive_read_next_header`; on status `0` yield an `Entry` over the current
record, on any other status yield nothing. -/
def Entries.next (es : Entries) : Option Entry × Entries :=
  match ctxReadNextHeader es.archive.underlying with
  | (st, ctx', r) =>
    let cur := match r with
      | some rec => some rec
      | none => es.current
    let es' : Entries :=
      { archive := { es.archive with underlying := ctx' }, current := cur }
    if st = 0 then
      match cur with
      | some rec => (some { record := rec }, es')
      | none => (none, es')
    else (none, es')

/-- The state of the iterator after `n` calls to `next`. -/
def Entries.stepN : Entries → Nat → Entries
  | es, 0 => es
  | es, n + 1 => Entries.stepN (es.next).2 n

/-- The items produced by at most `fuel` calls to `next`, stopping at the
first `none`. -/
def Entries.takeOut : Nat → Entries → List Entry
  | 0, _ => []
  | fuel + 1, es =>
    match es.next with
    | (some e, es') => e :: Entries.takeOut fuel es'
    | (none, _) => []

/-- A sequence of `append_file` calls, stopping at the first failure (the
value the whole sequence produces, Rust `?`-style). -/
def appendAll : Archive → List (List Nat × SrcFile) → Outcome Archive
  | a, [] => Outcome.ok a
  | a, (p, f) :: rest =>
    match (a.append_file p f).1 with
    | Outcome.ok a' => appendAll a' rest
    | Outcome.err e => Outcome.err e
    | Outcome.panic => Outcome.panic

/-- A sequence of `append_file` calls with the accumulated event trace; on a
failure the remaining calls are skipped and the archive (whose ownership the
caller retains, since `append_file` takes `&mut self`) is returned for
teardown. -/
def appendAllT : Archive → List (List Nat × SrcFile) → Archive × List Event
  | a, [] => (a, [])
  | a, (p, f) :: rest =>
    match a.append_file p f with
    | (Outcome.ok a', evs) =>
      match appendAllT a' rest with
      | (af, evs') => (af, evs ++ evs')
    | (_, evs) => (a, evs)

/-- Modelled from the spec: reopening for reading the archive produced by a
write context yields a read context whose `read-next-header` calls return
the written headers in order (the engine's encode/decode round trip, spec
sections 6 and 8; the engine is external to src/).  On a read archive this
is the identity. -/
def reopen (a : Archive) : Archive :=
  match a.underlying with
  | Ctx.write c =>
    { underlying := Ctx.read { pending := c.headers.map some, terminal := false },
      block_size := a.block_size, close_read := true }
  | Ctx.read _ => a

/-- The teardown calls occurring in a trace. -/
def teardownEvents (evs : List Event) : List Teardown :=
  evs.filterMap fun e =>
    match e with
    | Event.teardown t => some t
    | _ => none

/-- A complete write-mode lifetime: `create`, a sequence of `append_file`
calls, then the drop of the Archive (archive.rs lines 182-194), which fires
exactly once because the session owns the Archive.  A failed `create`
constructs no Archive, so no teardown runs. -/
def writeSessionTrace (path : List Nat) (env : WriteEnv)
    (items : List (List Nat × SrcFile)) : List Event :=
  match Archive.create path env with
  | Outcome.ok a =>
    match appendAllT a items with
    | (af, evs) => evs ++ [Event.teardown af.dropCall]
  | _ => []

/-- A complete read-mode lifetime: `open`, `entries()` (which moves the
Archive into the iterator), `n` iteration steps, then the drop of `Entries`,
which drops the owned Archive exactly once. -/
def readSessionTrace (path : List Nat) (fsMeta : Except String Nat)
    (env : ReadEnv) (n : Nat) : List Event :=
  match Archive.«open» path fsMeta env with
  | Outcome.ok a => [Event.teardown ((a.entries.stepN n).archive.dropCall)]
  | _ => []

/-- An iterator state from which no further item can ever be produced: its
read context has turned terminal, or the context is a write context (on
which `read-next-header` always reports non-success). -/
def Entries.dead (es : Entries) : Prop :=
  match es.archive.underlying with
  | Ctx.read c => c.terminal = true
  | Ctx.write _ => True

/-- A concrete readable source file ("foo" with content "foo\n"). -/
def fooFile : SrcFile :=
  { metaOk := true, blksize := 4096, content := [102, 111, 111, 10],
    readOk := true }

/-- A concrete readable source file ("bar" with content "bar\n"). -/
def barFile : SrcFile :=
  { metaOk := true, blksize := 4096, content := [98, 97, 114, 10],
    readOk := true }

/-- A concrete source file whose metadata query fails. -/
def metaFailFile : SrcFile :=
  { metaOk := false, blksize := 4096, content := [1, 2], readOk := true }

/-- A concrete source file whose first read fails. -/
def readFailFile : SrcFile :=
  { metaOk := true, blksize := 4096, content := [1, 2], readOk := false }

/-- A write-context engine environment in which every call succeeds. -/
def allOkWriteEnv : WriteEnv :=
  { allocOk := true, extOk := true, openOk := true, headerOk := true,
    dataOk := true }

/-- A read-context engine environment that opens an empty archive. -/
def emptyReadEnv : ReadEnv :=
  { allocOk := true, openOk := true, content := [] }

/-!  Helper lemmas. -/

/-- The write loop only accumulates data blocks: headers and the engine
flags of a write context are untouched. -/
theorem writeLoopAux_write :
    ∀ (fuel chunk : Nat) (content : List Nat) (c : WriteCtx),
      ∃ d, (writeLoopAux fuel (Ctx.write c) chunk content).1
        = Ctx.write
            { headers := c.headers, data := d, headerOk := c.headerOk,
              dataOk := c.dataOk } := by
  intro fuel
  induction fuel with
  | zero => exact fun chunk content c => ⟨c.data, rfl⟩
  | succ n ih =>
    intro chunk content c
    by_cases h : chunk = 0 ∨ content = []
    · exact ⟨c.data, by simp [writeLoopAux, h]⟩
    · by_cases hd : c.dataOk
      · obtain ⟨d, hrec⟩ := ih chunk (content.drop (min chunk content.length))
          { c with data := c.data ++ [content.take (min chunk content.length)] }
        exact ⟨d, by simpa [writeLoopAux, h, ctxWriteData, hd] using hrec⟩
      · obtain ⟨d, hrec⟩ := ih chunk (content.drop (min chunk content.length)) c
        exact ⟨d, by simpa [writeLoopAux, h, ctxWriteData, hd] using hrec⟩

/-- The write loop emits only data-write events, never a teardown. -/
theorem writeLoopAux_no_teardown :
    ∀ (fuel chunk : Nat) (content : List Nat) (u : Ctx),
      teardownEvents (writeLoopAux fuel u chunk content).2 = [] := by
  intro fuel
  induction fuel with
  | zero => intro chunk content u; rfl
  | succ n ih =>
    intro chunk content u
    by_cases h : chunk = 0 ∨ content = []
    · simp [writeLoopAux, h, teardownEvents]
    · rcases hcw : ctxWriteData u (content.take (min chunk content.length))
        with ⟨st, u'⟩
      have := ih chunk (content.drop (min chunk content.length)) u'
      simp [writeLoopAux, h, hcw, teardownEvents] at this ⊢
      exact this

/-- A successful `append_file` on a cooperating write context appends
exactly one regular-file header carrying the given path. -/
theorem appendFileCtx_write_ok (c : WriteCtx) (p : List Nat) (f : SrcFile)
    (hH : c.headerOk = true) (hp : 0 ∉ p) (hm : f.metaOk = true)
    (hr : f.readOk = true) :
    ∃ d, (appendFileCtx (Ctx.write c) p f).1
      = Outcome.ok (Ctx.write
          { headers := c.headers ++ [{ filetype := AE_IFREG, pathname := p }],
            data := d, headerOk := c.headerOk, dataOk := c.dataOk }) := by
  obtain ⟨d, hd⟩ := writeLoopAux_write f.content.length (blockSizeOf f.blksize)
    f.content
    { headers := c.headers ++ [{ filetype := AE_IFREG, pathname := p }],
      data := c.data, headerOk := c.headerOk, dataOk := c.dataOk }
  refine ⟨d, ?_⟩
  rcases hw : writeLoopAux f.content.length
      (Ctx.write
        { headers := c.headers ++ [{ filetype := AE_IFREG, pathname := p }],
          data := c.data, headerOk := c.headerOk, dataOk := c.dataOk })
      (blockSizeOf f.blksize) f.content with ⟨ctx2, devs⟩
  rw [hw] at hd
  simp only at hd
  simp only [hH] at hw hd
  simp [appendFileCtx, cstringNew, hp, hm, hr, ctxWriteHeader, hH,
    ARCHIVE_OK, writeLoop, hw, hd]

/-- A successful sequence of `append_file` calls on a cooperating write
archive appends exactly the regular-file headers of the given paths, in
order. -/
theorem appendAll_write_ok :
    ∀ (items : List (List Nat × SrcFile)) (c : WriteCtx) (bs : Nat) (cr : Bool),
      c.headerOk = true →
      (∀ pr ∈ items, 0 ∉ pr.1 ∧ pr.2.metaOk = true ∧ pr.2.readOk = true) →
      ∃ d, appendAll ⟨Ctx.write c, bs, cr⟩ items
        = Outcome.ok ⟨Ctx.write
            { headers :=
                c.headers
                  ++ items.map (fun pr => { filetype := AE_IFREG, pathname := pr.1 }),
              data := d, headerOk := c.headerOk, dataOk := c.dataOk }, bs, cr⟩ := by
  intro items
  induction items with
  | nil =>
    intro c bs cr hH hitems
    exact ⟨c.data, by simp [appendAll]⟩
  | cons pr rest ih =>
    obtain ⟨p, f⟩ := pr
    intro c bs cr hH hitems
    obtain ⟨hp, hm, hr⟩ := hitems (p, f) (by simp)
    obtain ⟨d1, h1⟩ := appendFileCtx_write_ok c p f hH hp hm hr
    obtain ⟨d, hrest⟩ := ih
      { headers := c.headers ++ [{ filetype := AE_IFREG, pathname := p }],
        data := d1, headerOk := c.headerOk, dataOk := c.dataOk } bs cr hH
      (fun q hq => hitems q (by simp [hq]))
    refine ⟨d, ?_⟩
    rcases hac : appendFileCtx (Ctx.write c) p f with ⟨out, evs⟩
    rw [hac] at h1
    simp only at h1
    subst h1
    simp only [appendAll, Archive.append_file, hac]
    simpa using hrest

/-- Iterating a read archive whose stream holds the headers `hs` (with
enough fuel) yields exactly the paths of `hs`, in order. -/
theorem takeOut_read :
    ∀ (hs : List EntryRec) (fuel : Nat), hs.length ≤ fuel →
      ∀ (bs : Nat) (cr : Bool) (cur : Option EntryRec),
        (Entries.takeOut fuel
            { archive :=
                ⟨Ctx.read { pending := hs.map some, terminal := false }, bs, cr⟩,
              current := cur }).map Entry.path
          = hs.map EntryRec.pathname := by
  intro hs
  induction hs with
  | nil =>
    intro fuel hf bs cr cur
    cases fuel with
    | zero => rfl
    | succ n =>
      simp [Entries.takeOut, Entries.next, ctxReadNextHeader, readNextHeader,
        ARCHIVE_EOF]
  | cons h t ih =>
    intro fuel hf bs cr cur
    cases fuel with
    | zero => exact absurd hf (by simp)
    | succ n =>
      have hn : t.length ≤ n := by simpa using hf
      simp [Entries.takeOut, Entries.next, ctxReadNextHeader, readNextHeader,
        ARCHIVE_OK]
      exact ⟨rfl, ih n hn bs cr (some h)⟩

/-- When `next` yields nothing, the state it leaves behind is dead. -/
theorem next_none_dead (es : Entries) (h : (es.next).1 = none) :
    Entries.dead (es.next).2 := by
  obtain ⟨⟨u, bs, cr⟩, cur⟩ := es
  cases u with
  | write c =>
    simp [Entries.dead, Entries.next, ctxReadNextHeader, ARCHIVE_FATAL]
  | read c =>
    obtain ⟨pending, terminal⟩ := c
    cases terminal with
    | true =>
      simp [Entries.dead, Entries.next, ctxReadNextHeader, readNextHeader,
        ARCHIVE_FATAL]
    | false =>
      cases pending with
      | nil =>
        simp [Entries.dead, Entries.next, ctxReadNextHeader, readNextHeader,
          ARCHIVE_EOF]
      | cons o rest =>
        cases o with
        | some r =>
          exfalso
          simp [Entries.next, ctxReadNextHeader, readNextHeader,
            ARCHIVE_OK] at h
        | none =>
          simp [Entries.dead, Entries.next, ctxReadNextHeader, readNextHeader,
            ARCHIVE_FATAL]

/-- `next` on a dead state yields nothing and stays dead. -/
theorem dead_next (es : Entries) (h : Entries.dead es) :
    (es.next).1 = none ∧ Entries.dead (es.next).2 := by
  obtain ⟨⟨u, bs, cr⟩, cur⟩ := es
  cases u with
  | write c =>
    simp [Entries.dead, Entries.next, ctxReadNextHeader, ARCHIVE_FATAL]
  | read c =>
    have ht : c.terminal = true := h
    obtain ⟨pending, terminal⟩ := c
    cases ht
    simp [Entries.dead, Entries.next, ctxReadNextHeader, readNextHeader,
      ARCHIVE_FATAL]

/-- Dead states stay dead through any number of iteration steps. -/
theorem dead_stepN : ∀ (n : Nat) (es : Entries), Entries.dead es →
    Entries.dead (es.stepN n) := by
  intro n
  induction n with
  | zero => exact fun es h => h
  | succ m ih => exact fun es h => ih (es.next).2 (dead_next es h).2

/-!  The claims. -/

/-- C1: for every sequence of N regular files appended via `create` followed
by N `append_file` calls with distinct logical paths (NUL-free, with
readable sources, against a cooperating engine), reopening the resulting
archive for reading and iterating its Entries yields exactly N entries
whose `path()` values equal the appended paths, in the same order they were
appended.  The round trip through the on-disk bytes is the external
engine's, modelled from the spec by `reopen`. -/
theorem c1_create_append_reopen_roundtrip (cpath : List Nat) (env : WriteEnv)
    (items : List (List Nat × SrcFile))
    (hcp : 0 ∉ cpath) (halloc : env.allocOk = true) (hext : env.extOk = true)
    (hopen : env.openOk = true) (hheader : env.headerOk = true)
    (_hnodup : (items.map Prod.fst).Nodup)
    (hitems : ∀ pr ∈ items, 0 ∉ pr.1 ∧ pr.2.metaOk = true ∧ pr.2.readOk = true) :
    ∃ a0 aN, Archive.create cpath env = Outcome.ok a0
      ∧ appendAll a0 items = Outcome.ok aN
      ∧ ∀ fuel, items.length ≤ fuel →
          (Entries.takeOut fuel (Archive.entries (reopen aN))).map Entry.path
            = items.map Prod.fst := by
  have hcreate : Archive.create cpath env
      = Outcome.ok ⟨Ctx.write
          { headers := [], data := [], headerOk := env.headerOk,
            dataOk := env.dataOk }, DEFAULT_BLOCK_SIZE, false⟩ := by
    simp [Archive.create, cstringNew, hcp, halloc, hext, hopen]
  obtain ⟨d, happ⟩ := appendAll_write_ok items
    { headers := [], data := [], headerOk := env.headerOk, dataOk := env.dataOk }
    DEFAULT_BLOCK_SIZE false (by simpa using hheader) hitems
  refine ⟨_, _, hcreate, happ, ?_⟩
  intro fuel hfuel
  have hrb := takeOut_read
    (items.map fun pr => { filetype := AE_IFREG, pathname := pr.1 }) fuel
    (by simpa using hfuel) DEFAULT_BLOCK_SIZE true none
  simp only [reopen, Archive.entries, List.nil_append]
  simpa [List.map_map, Function.comp] using hrb

/-- C1 witness: two concrete files appended to a fresh archive read back as
their two paths in order. -/
theorem c1_create_append_reopen_roundtrip_witness :
    ∃ a0 aN,
      Archive.create [97, 46, 116, 97, 114] allOkWriteEnv = Outcome.ok a0
      ∧ appendAll a0 [([120], fooFile), ([121], barFile)] = Outcome.ok aN
      ∧ ∀ fuel,
          ([([120], fooFile), ([121], barFile)] :
              List (List Nat × SrcFile)).length ≤ fuel →
          (Entries.takeOut fuel (Archive.entries (reopen aN))).map Entry.path
            = [[120], [121]] :=
  c1_create_append_reopen_roundtrip [97, 46, 116, 97, 114] allOkWriteEnv
    [([120], fooFile), ([121], barFile)]
    (by decide) rfl rfl rfl rfl (by decide) (by decide)

/-- C9: once `next()` has returned `None`, every subsequent call also
returns `None`: exhaustion (clean end-of-archive, a read failure, or a
mode-mismatched context) is a sticky terminal state and no further Entry is
ever produced. -/
theorem c9_exhaustion_is_sticky (es : Entries) (h : (es.next).1 = none) :
    ∀ n, ((((es.next).2).stepN n).next).1 = none := by
  intro n
  exact (dead_next _ (dead_stepN n (es.next).2 (next_none_dead es h))).1

/-- C9 witness: an opened empty archive returns `None` at once, and still
returns `None` three steps later. -/
theorem c9_exhaustion_is_sticky_witness :
    ((((Archive.entries ⟨Ctx.read { pending := [], terminal := false }, 65536,
        true⟩).next).2.stepN 3).next).1 = none :=
  c9_exhaustion_is_sticky
    (Archive.entries ⟨Ctx.read { pending := [], terminal := false }, 65536,
      true⟩) rfl 3

/-- C2 counterexample: opening a nonexistent path (the metadata query fails
with the platform's message) yields an `Io`-kind error, not the
engine-error kind the claim requires. -/
theorem c2_nonexistent_open_io_kind :
    Archive.«open» [97] (Except.error "No such file or directory (os error 2)")
        emptyReadEnv
      = Outcome.err
          { message := "No such file or directory (os error 2)",
            kind := ErrorKind.Io }
    ∧ ErrorKind.Io ≠ ErrorKind.LibArchive :=
  ⟨rfl, by decide⟩

/-- C2 (amended): on unix, `open` of a nonexistent path fails with the
`Io`-kind error lifted from `fs::metadata` through `From<std::io::Error>`;
`open` of an existing path the engine cannot open (or whose context
allocation fails) fails with a `LibArchive`-kind engine error; in every
such case the result is an error, never a usable Archive. -/
theorem c2_open_failure_kinds (path : List Nat) (hp : 0 ∉ path) :
    (∀ (msg : String) (env : ReadEnv),
        Archive.«open» path (Except.error msg) env
          = Outcome.err { message := msg, kind := ErrorKind.Io })
  ∧ (∀ (b : Nat) (env : ReadEnv), env.openOk = false →
        ∃ e, Archive.«open» path (Except.ok b) env = Outcome.err e
          ∧ e.kind = ErrorKind.LibArchive) := by
  constructor
  · intro msg env
    simp [Archive.«open», cstringNew, hp, Error.fromIo]
  · intro b env hopen
    by_cases halloc : env.allocOk = false
    · exact ⟨Error.new "archive allocation error",
        by simp [Archive.«open», cstringNew, hp, Archive.open_filename, halloc],
        rfl⟩
    · exact ⟨Error.from_archive,
        by simp [Archive.«open», cstringNew, hp, Archive.open_filename, halloc,
          hopen], rfl⟩

/-- C2 witness: the amended statement at a concrete nonexistent path. -/
theorem c2_open_failure_kinds_witness :
    Archive.«open» [97] (Except.error "No such file or directory (os error 2)")
        { allocOk := true, openOk := true, content := [] }
      = Outcome.err
          { message := "No such file or directory (os error 2)",
            kind := ErrorKind.Io } :=
  (c2_open_failure_kinds [97] (by decide)).1
    "No such file or directory (os error 2)"
    { allocOk := true, openOk := true, content := [] }

/-- C3 counterexample: `entries()` on a concrete write-mode Archive is not
rejected: the call type-checks, carries no error channel, and iterating the
returned iterator yields the empty sequence. -/
theorem c3_write_mode_entries_silent :
    Archive.create [97, 46, 116, 97, 114] allOkWriteEnv
      = Outcome.ok ⟨Ctx.write
          { headers := [], data := [], headerOk := true, dataOk := true },
          65536, false⟩
    ∧ Entries.takeOut 5
        (Archive.entries ⟨Ctx.write
          { headers := [], data := [], headerOk := true, dataOk := true },
          65536, false⟩)
      = [] :=
  ⟨rfl, rfl⟩

/-- C3 (amended): `entries()` performs no mode check: on every write-mode
Archive it returns an iterator with no error indication, and iterating it
yields the empty sequence (the engine reports non-success for
read-next-header against a write context). -/
theorem c3_write_mode_entries_empty (a : Archive) (c : WriteCtx)
    (h : a.underlying = Ctx.write c) :
    ∀ n, Entries.takeOut n (Archive.entries a) = [] := by
  intro n
  cases n with
  | zero => rfl
  | succ m =>
    simp [Entries.takeOut, Entries.next, Archive.entries, h, ctxReadNextHeader,
      ARCHIVE_FATAL]

/-- C3 witness: the amended statement at a concrete write-mode Archive. -/
theorem c3_write_mode_entries_empty_witness :
    Entries.takeOut 4
        (Archive.entries ⟨Ctx.write
          { headers := [], data := [], headerOk := true, dataOk := true },
          65536, false⟩)
      = [] :=
  c3_write_mode_entries_empty
    ⟨Ctx.write { headers := [], data := [], headerOk := true, dataOk := true },
      65536, false⟩
    { headers := [], data := [], headerOk := true, dataOk := true } rfl 4

/-- C4 counterexample: `append_file` on a concrete read-mode Archive is
performed against the read context — the traced engine calls contain the
header write issued on the read context — instead of being rejected before
reaching it. -/
theorem c4_append_on_read_ctx_performed :
    (Archive.append_file ⟨Ctx.read { pending := [], terminal := false }, 65536,
        true⟩ [120] fooFile).2
      = [Event.allocEntry, Event.writeHeaderCall true]
    ∧ (Archive.append_file ⟨Ctx.read { pending := [], terminal := false },
        65536, true⟩ [120] fooFile).1
      = Outcome.err { message := engineDiagnostic, kind := ErrorKind.LibArchive } :=
  ⟨rfl, rfl⟩

/-- C4 (amended): `append_file` on a read-mode Archive is not rejected by
the wrapper, statically or dynamically: the header write is performed
against the read context, and only the engine's non-success status stops
the call, surfaced as a `LibArchive`-kind error (with the transient entry
record left unreleased). -/
theorem c4_append_on_read_mode (c : ReadCtx) (bs : Nat) (cr : Bool)
    (p : List Nat) (f : SrcFile) (hp : 0 ∉ p) (hm : f.metaOk = true) :
    (Archive.append_file ⟨Ctx.read c, bs, cr⟩ p f).1
      = Outcome.err Error.from_archive
    ∧ (Archive.append_file ⟨Ctx.read c, bs, cr⟩ p f).2
      = [Event.allocEntry, Event.writeHeaderCall true] := by
  constructor <;>
    simp [Archive.append_file, appendFileCtx, cstringNew, hp, hm,
      ctxWriteHeader, ARCHIVE_FATAL, ARCHIVE_OK]

/-- C4 witness: the amended statement at a concrete read-mode Archive. -/
theorem c4_append_on_read_mode_witness :
    (Archive.append_file ⟨Ctx.read { pending := [], terminal := false }, 65536,
        true⟩ [121] fooFile).1
      = Outcome.err Error.from_archive
    ∧ (Archive.append_file ⟨Ctx.read { pending := [], terminal := false },
        65536, true⟩ [121] fooFile).2
      = [Event.allocEntry, Event.writeHeaderCall true] :=
  c4_append_on_read_mode { pending := [], terminal := false } 65536 true [121]
    fooFile (by decide) rfl

/-- C5 (code bug): the transient entry record is NOT released on the error
paths of `append_file`.  At three concrete failing inputs — header-write
failure, metadata failure, and source-read failure — the traced engine
calls contain the entry allocation but no release; only the success path
reaches `archive_entry_free`. -/
theorem c5_entry_leak_on_error_paths :
    (Archive.append_file ⟨Ctx.write
          { headers := [], data := [], headerOk := false, dataOk := true },
          65536, false⟩ [120] fooFile
        = (Outcome.err Error.from_archive,
            [Event.allocEntry, Event.writeHeaderCall false])
      ∧ Event.freeEntry ∉ [Event.allocEntry, Event.writeHeaderCall false])
  ∧ (Archive.append_file ⟨Ctx.write
          { headers := [], data := [], headerOk := true, dataOk := true },
          65536, false⟩ [120] metaFailFile
        = (Outcome.err (Error.fromIo "metadata error"), [Event.allocEntry])
      ∧ Event.freeEntry ∉ [Event.allocEntry])
  ∧ (Archive.append_file ⟨Ctx.write
          { headers := [], data := [], headerOk := true, dataOk := true },
          65536, false⟩ [120] readFailFile
        = (Outcome.err (Error.fromIo "read error"),
            [Event.allocEntry, Event.writeHeaderCall false])
      ∧ Event.freeEntry ∉ [Event.allocEntry, Event.writeHeaderCall false]) :=
  ⟨⟨rfl, by decide⟩, ⟨rfl, by decide⟩, ⟨rfl, by decide⟩⟩

/-- C6 (code bug): the status returned by the engine's write-data call is
discarded by `append_file`.  With an engine that rejects data writes, the
trace shows the negative write-data status, no data is accepted, and the
call still returns Ok — the failure never reaches the caller. -/
theorem c6_write_data_status_discarded :
    Archive.append_file ⟨Ctx.write
        { headers := [], data := [], headerOk := true, dataOk := false },
        65536, false⟩ [120] fooFile
      = (Outcome.ok ⟨Ctx.write
            { headers := [{ filetype := AE_IFREG, pathname := [120] }],
              data := [], headerOk := true, dataOk := false },
            65536, false⟩,
          [Event.allocEntry, Event.writeHeaderCall false,
            Event.writeDataCall ARCHIVE_FATAL, Event.freeEntry])
    ∧ ARCHIVE_FATAL < ARCHIVE_OK :=
  ⟨rfl, by decide⟩

/-- C8 counterexample: a platform-reported block size of 0 is passed
through unchecked: the archive opens successfully and `block_size()` is 0,
which is not a positive integer. -/
theorem c8_block_size_zero_passthrough :
    Archive.«open» [97] (Except.ok 0) emptyReadEnv
      = Outcome.ok ⟨Ctx.read { pending := [], terminal := false }, 0, true⟩
    ∧ ¬ 0 < Archive.blockSize
        ⟨Ctx.read { pending := [], terminal := false }, 0, true⟩ :=
  ⟨rfl, by decide⟩

/-- C10: `open`, `create` and `append_file` panic, at the
`CString::new(..).unwrap()`, for every path whose lossy-converted byte
representation contains a NUL byte (in particular an interior one): these
public operations are not total on all path inputs. -/
theorem c10_nul_byte_panics (path : List Nat) (h : 0 ∈ path) :
    (∀ (fsMeta : Except String Nat) (env : ReadEnv),
        Archive.«open» path fsMeta env = Outcome.panic)
  ∧ (∀ (env : WriteEnv), Archive.create path env = Outcome.panic)
  ∧ (∀ (a : Archive) (f : SrcFile),
        Archive.append_file a path f = (Outcome.panic, [])) := by
  refine ⟨?_, ?_, ?_⟩ <;> intros <;>
    simp [Archive.«open», Archive.create, Archive.append_file, appendFileCtx,
      cstringNew, h]

/-- C10 witness: a path with an interior NUL byte makes `open` panic. -/
theorem c10_nul_byte_panics_witness :
    Archive.«open» [120, 0, 121] (Except.ok 4096) emptyReadEnv
      = Outcome.panic :=
  (c10_nul_byte_panics [120, 0, 121] (by decide)).1 (Except.ok 4096)
    emptyReadEnv

/-- Inversion of a successful `open_filename`: the produced Archive. -/
theorem open_filename_ok (env : ReadEnv) (bs : Nat) (a : Archive)
    (h : Archive.open_filename env bs = Outcome.ok a) :
    a = ⟨Ctx.read { pending := env.content, terminal := false }, bs, true⟩ := by
  unfold Archive.open_filename at h
  split_ifs at h with h1 h2
  all_goals
    first
      | exact Outcome.noConfusion h
      | (injection h with h; exact h.symm)

/-- Inversion of a successful `open`: the Archive is in read mode. -/
theorem open_ok (path : List Nat) (fsMeta : Except String Nat) (env : ReadEnv)
    (a : Archive) (h : Archive.«open» path fsMeta env = Outcome.ok a) :
    ∃ bs, a = ⟨Ctx.read { pending := env.content, terminal := false }, bs,
      true⟩ := by
  unfold Archive.«open» at h
  cases hcs : cstringNew path with
  | none =>
    rw [hcs] at h
    exact Outcome.noConfusion h
  | some cp =>
    rw [hcs] at h
    cases fsMeta with
    | error msg => exact Outcome.noConfusion h
    | ok b => exact ⟨blockSizeOf b, open_filename_ok env (blockSizeOf b) a h⟩

/-- Inversion of a successful `create`: the produced Archive. -/
theorem create_ok (path : List Nat) (env : WriteEnv) (a : Archive)
    (h : Archive.create path env = Outcome.ok a) :
    a = ⟨Ctx.write
      { headers := [], data := [], headerOk := env.headerOk,
        dataOk := env.dataOk }, DEFAULT_BLOCK_SIZE, false⟩ := by
  unfold Archive.create at h
  cases hcs : cstringNew path with
  | none =>
    rw [hcs] at h
    exact Outcome.noConfusion h
  | some cp =>
    rw [hcs] at h
    simp only at h
    split_ifs at h with h1 h2 h3
    all_goals
      first
        | exact Outcome.noConfusion h
        | (injection h with h; exact h.symm)

/-- `append_file` mutates only the owned context: `close_read` and
`block_size` survive a successful call. -/
theorem append_file_ok_fields (a : Archive) (p : List Nat) (f : SrcFile)
    (a' : Archive) (h : (a.append_file p f).1 = Outcome.ok a') :
    a'.close_read = a.close_read ∧ a'.block_size = a.block_size := by
  unfold Archive.append_file at h
  rcases hac : appendFileCtx a.underlying p f with ⟨out, evs⟩
  rw [hac] at h
  cases out with
  | ok u' =>
    injection h with h
    rw [← h]
    exact ⟨rfl, rfl⟩
  | err e => exact Outcome.noConfusion h
  | panic => exact Outcome.noConfusion h

/-- The `close_read` flag survives any sequence of `append_file` calls. -/
theorem appendAllT_close_read :
    ∀ (items : List (List Nat × SrcFile)) (a : Archive),
      (appendAllT a items).1.close_read = a.close_read := by
  intro items
  induction items with
  | nil => intro a; rfl
  | cons pr rest ih =>
    obtain ⟨p, f⟩ := pr
    intro a
    rcases hap : a.append_file p f with ⟨out, evs⟩
    cases out with
    | ok a' =>
      have h1 : a'.close_read = a.close_read :=
        (append_file_ok_fields a p f a' (by rw [hap])).1
      rcases hrest : appendAllT a' rest with ⟨af, evs'⟩
      have h2 := ih a'
      rw [hrest] at h2
      simp only at h2
      simp [appendAllT, hap, hrest, h2, h1]
    | err e => simp [appendAllT, hap]
    | panic => simp [appendAllT, hap]

/-- `append_file` never emits a teardown event. -/
theorem appendFileCtx_no_teardown (u : Ctx) (p : List Nat) (f : SrcFile) :
    teardownEvents (appendFileCtx u p f).2 = [] := by
  by_cases hcs : 0 ∈ p
  · simp [appendFileCtx, cstringNew, hcs, teardownEvents]
  · by_cases hm : f.metaOk = false
    · simp [appendFileCtx, cstringNew, hcs, hm, teardownEvents]
    · cases u with
      | read c =>
        simp [appendFileCtx, cstringNew, hcs, hm, ctxWriteHeader,
          ARCHIVE_FATAL, ARCHIVE_OK, teardownEvents]
      | write c =>
        by_cases hH : c.headerOk
        · by_cases hr : f.readOk = false
          · simp [appendFileCtx, cstringNew, hcs, hm, ctxWriteHeader, hH,
              ARCHIVE_OK, hr, teardownEvents]
          · have hd := writeLoopAux_no_teardown f.content.length
              (blockSizeOf f.blksize) f.content
              (Ctx.write
                { headers := c.headers
                    ++ [{ filetype := AE_IFREG, pathname := p }],
                  data := c.data, headerOk := true, dataOk := c.dataOk })
            rcases hw : writeLoopAux f.content.length
                (Ctx.write
                  { headers := c.headers
                      ++ [{ filetype := AE_IFREG, pathname := p }],
                    data := c.data, headerOk := true, dataOk := c.dataOk })
                (blockSizeOf f.blksize) f.content with ⟨ctx2, devs⟩
            rw [hw] at hd
            simp only at hd
            simp [appendFileCtx, cstringNew, hcs, hm, ctxWriteHeader, hH,
              ARCHIVE_OK, hr, writeLoop, hw, teardownEvents,
              List.filterMap_append] at hd ⊢
            exact hd
        · simp [appendFileCtx, cstringNew, hcs, hm, ctxWriteHeader, hH,
            ARCHIVE_OK, ARCHIVE_FATAL, teardownEvents]

/-- A sequence of `append_file` calls never emits a teardown event. -/
theorem appendAllT_no_teardown :
    ∀ (items : List (List Nat × SrcFile)) (a : Archive),
      teardownEvents (appendAllT a items).2 = [] := by
  intro items
  induction items with
  | nil => intro a; rfl
  | cons pr rest ih =>
    obtain ⟨p, f⟩ := pr
    intro a
    have h1 := appendFileCtx_no_teardown a.underlying p f
    rcases hac : appendFileCtx a.underlying p f with ⟨out, evs⟩
    rw [hac] at h1
    simp only at h1
    cases out with
    | ok u' =>
      rcases hrest : appendAllT { a with underlying := u' } rest
        with ⟨af, evs'⟩
      have h2 := ih { a with underlying := u' }
      rw [hrest] at h2
      simp only at h2
      simp [appendAllT, Archive.append_file, hac, hrest, teardownEvents,
        List.filterMap_append] at h1 h2 ⊢
      exact ⟨h1, h2⟩
    | err e =>
      simp [appendAllT, Archive.append_file, hac]
      exact h1
    | panic =>
      simp [appendAllT, Archive.append_file, hac]
      exact h1

/-- One iteration step leaves the owned Archive's `close_read` and
`block_size` unchanged. -/
theorem next_archive_fields (es : Entries) :
    (es.next).2.archive.close_read = es.archive.close_read
    ∧ (es.next).2.archive.block_size = es.archive.block_size := by
  unfold Entries.next
  rcases h : ctxReadNextHeader es.archive.underlying with ⟨st, ctx', r⟩
  by_cases hst : st = 0 <;> cases r <;> cases hcur : es.current <;>
    simp [h, hst, hcur]

/-- Any number of iteration steps leaves `close_read` unchanged. -/
theorem stepN_close_read :
    ∀ (n : Nat) (es : Entries),
      (es.stepN n).archive.close_read = es.archive.close_read := by
  intro n
  induction n with
  | zero => intro es; rfl
  | succ m ih =>
    intro es
    calc (es.stepN (m + 1)).archive.close_read
        = ((es.next).2.stepN m).archive.close_read := rfl
      _ = (es.next).2.archive.close_read := ih (es.next).2
      _ = es.archive.close_read := (next_archive_fields es).1

/-- C7: for every Archive instance the native context is released exactly
once over its lifetime, by the teardown call matching the mode it was
opened with: Archives produced by `open`/`stdin` carry a read context and
drop with the read-context release, Archives produced by `create` carry a
write context and drop with the write-context release; a complete
write-mode or read-mode session emits exactly one matching teardown event. -/
theorem c7_teardown_once_matching_mode :
    (∀ (path : List Nat) (fsMeta : Except String Nat) (env : ReadEnv)
        (a : Archive), Archive.«open» path fsMeta env = Outcome.ok a →
        a.dropCall = Teardown.readFree ∧ ∃ c, a.underlying = Ctx.read c)
  ∧ (∀ (env : ReadEnv) (a : Archive), Archive.stdin env = Outcome.ok a →
        a.dropCall = Teardown.readFree ∧ ∃ c, a.underlying = Ctx.read c)
  ∧ (∀ (path : List Nat) (env : WriteEnv) (a : Archive),
        Archive.create path env = Outcome.ok a →
        a.dropCall = Teardown.writeFree ∧ ∃ c, a.underlying = Ctx.write c)
  ∧ (∀ (path : List Nat) (env : WriteEnv) (items : List (List Nat × SrcFile))
        (a : Archive), Archive.create path env = Outcome.ok a →
        teardownEvents (writeSessionTrace path env items) = [Teardown.writeFree])
  ∧ (∀ (path : List Nat) (fsMeta : Except String Nat) (env : ReadEnv)
        (n : Nat) (a : Archive), Archive.«open» path fsMeta env = Outcome.ok a →
        teardownEvents (readSessionTrace path fsMeta env n)
          = [Teardown.readFree]) := by
  refine ⟨?_, ?_, ?_, ?_, ?_⟩
  · intro path fsMeta env a h
    obtain ⟨bs, ha⟩ := open_ok path fsMeta env a h
    subst ha
    exact ⟨rfl, ⟨{ pending := env.content, terminal := false }, rfl⟩⟩
  · intro env a h
    have ha := open_filename_ok env DEFAULT_BLOCK_SIZE a h
    subst ha
    exact ⟨rfl, ⟨{ pending := env.content, terminal := false }, rfl⟩⟩
  · intro path env a h
    have ha := create_ok path env a h
    subst ha
    exact ⟨rfl,
      ⟨{ headers := [], data := [], headerOk := env.headerOk,
          dataOk := env.dataOk }, rfl⟩⟩
  · intro path env items a h
    have ha := create_ok path env a h
    have hcr : (appendAllT a items).1.close_read = false := by
      rw [appendAllT_close_read items a, ha]
    have hnt := appendAllT_no_teardown items a
    rcases hT : appendAllT a items with ⟨af, evs⟩
    rw [hT] at hcr hnt
    simp only at hcr hnt
    unfold writeSessionTrace
    rw [h]
    simp only
    rw [hT]
    simp only
    unfold teardownEvents at hnt ⊢
    rw [List.filterMap_append, hnt]
    simp [Archive.dropCall, hcr]
  · intro path fsMeta env n a h
    obtain ⟨bs, ha⟩ := open_ok path fsMeta env a h
    have hcr : ((Archive.entries a).stepN n).archive.close_read = true := by
      rw [stepN_close_read n (Archive.entries a)]
      show a.close_read = true
      rw [ha]
    unfold readSessionTrace
    rw [h]
    simp [teardownEvents, Archive.dropCall, hcr]

/-- C8 (amended): `block_size()` equals the platform-reported block size
whenever it is representable in `usize` and 65536 otherwise, and is exactly
65536 for `stdin` and `create`; it is positive whenever the platform
reports a positive size, but a reported size of 0 is passed through
unchecked. -/
theorem c8_block_size_source (path : List Nat) (hp : 0 ∉ path) :
    (∀ (b : Nat) (env : ReadEnv) (a : Archive),
        Archive.«open» path (Except.ok b) env = Outcome.ok a →
        a.blockSize = blockSizeOf b
        ∧ (0 < b → 0 < a.blockSize)
        ∧ (usizeMax < b → a.blockSize = DEFAULT_BLOCK_SIZE))
  ∧ (∀ (env : ReadEnv) (a : Archive), Archive.stdin env = Outcome.ok a →
        a.blockSize = DEFAULT_BLOCK_SIZE)
  ∧ (∀ (path2 : List Nat) (env : WriteEnv) (a : Archive),
        Archive.create path2 env = Outcome.ok a →
        a.blockSize = DEFAULT_BLOCK_SIZE) := by
  refine ⟨?_, ?_, ?_⟩
  · intro b env a h
    unfold Archive.«open» at h
    rw [show cstringNew path = some path from by simp [cstringNew, hp]] at h
    simp only at h
    have ha := open_filename_ok env (blockSizeOf b) a h
    subst ha
    refine ⟨rfl, ?_, ?_⟩
    · intro hb
      show 0 < blockSizeOf b
      unfold blockSizeOf
      split
      · exact hb
      · simp [DEFAULT_BLOCK_SIZE]
    · intro hb
      show blockSizeOf b = DEFAULT_BLOCK_SIZE
      unfold blockSizeOf
      rw [if_neg (by omega)]
  · intro env a h
    have ha := open_filename_ok env DEFAULT_BLOCK_SIZE a h
    subst ha
    rfl
  · intro path2 env a h
    have ha := create_ok path2 env a h
    subst ha
    rfl

/-- C8 witness: the amended statement at a concrete reported size of 4096. -/
theorem c8_block_size_source_witness :
    Archive.blockSize
        ⟨Ctx.read { pending := [], terminal := false }, blockSizeOf 4096, true⟩
      = blockSizeOf 4096
    ∧ (0 < 4096 → 0 < Archive.blockSize
        ⟨Ctx.read { pending := [], terminal := false }, blockSizeOf 4096, true⟩)
    ∧ (usizeMax < 4096 → Archive.blockSize
        ⟨Ctx.read { pending := [], terminal := false }, blockSizeOf 4096, true⟩
      = DEFAULT_BLOCK_SIZE) :=
  (c8_block_size_source [97] (by decide)).1 4096 emptyReadEnv
    ⟨Ctx.read { pending := [], terminal := false }, blockSizeOf 4096, true⟩ rfl

end LibArchiveRs
